import Mathlib

/-!
# GhostGate: shallow embedding and verification

A shallow embedding of the GhostGate opencode plugin (configuration
resolver, registry catalog loader, activation state machine, pruning
engine, status/metrics command handlers), together with theorems that
settle the specification claims against the code.

Sources embedded:
- `lib/config.ts` — layered configuration: `mergeConfig`, `getConfig`,
  `createDefaultConfig`, `loadConfigFile`.
- `index.ts` / compiled `index.js` — `getRegistry`, `pruneToolResult`,
  the command handlers and the model-facing tools
  (`search_ghost_tools`, `activate_ghost_tool`, `purge_ghost_context`).
- `lib/commands/status.ts` — `estimateTokenCount`, `estimateSchemaTokens`,
  `createTokenMetrics`.
-/

namespace GhostGate

/-! ## Configuration data model (`lib/config.ts`) -/

/-- `RegistryConfig` from `lib/config.ts`. -/
structure RegistryConfig where
  enabled : Bool
  path : String
deriving DecidableEq, Repr

/-- `PruningConfig` from `lib/config.ts`. -/
structure PruningConfig where
  enabled : Bool
  maxTokens : Nat
  minTokens : Nat
deriving DecidableEq, Repr

/-- `MetricsConfig` from `lib/config.ts`. -/
structure MetricsConfig where
  enabled : Bool
  showInStatus : Bool
deriving DecidableEq, Repr

/-- `CommandsConfig` from `lib/config.ts`. -/
structure CommandsConfig where
  enabled : Bool
deriving DecidableEq, Repr

/-- `PluginConfig` from `lib/config.ts`. -/
structure PluginConfig where
  enabled : Bool
  debug : Bool
  registry : RegistryConfig
  pruning : PruningConfig
  metrics : MetricsConfig
  commands : CommandsConfig
deriving DecidableEq, Repr

/-- The hard-coded `defaultConfig` of `lib/config.ts`. -/
def defaultConfig : PluginConfig :=
  { enabled := true
    debug := false
    registry := { enabled := true, path := "./.opencode/ghostgate/registry" }
    pruning := { enabled := true, maxTokens := 2000, minTokens := 100 }
    metrics := { enabled := true, showInStatus := true }
    commands := { enabled := true } }

/-- A partial `registry` section as read from a JSONC layer file: each field
is present (`some`) or absent/null (`none`), matching how `??` in
`mergeConfig` treats `undefined` and `null` alike. -/
structure PartialRegistryConfig where
  enabled : Option Bool := none
  path : Option String := none
deriving DecidableEq, Repr

/-- A partial `pruning` section of a layer file. -/
structure PartialPruningConfig where
  enabled : Option Bool := none
  maxTokens : Option Nat := none
  minTokens : Option Nat := none
deriving DecidableEq, Repr

/-- A partial `metrics` section of a layer file. -/
structure PartialMetricsConfig where
  enabled : Option Bool := none
  showInStatus : Option Bool := none
deriving DecidableEq, Repr

/-- A partial `commands` section of a layer file. -/
structure PartialCommandsConfig where
  enabled : Option Bool := none
deriving DecidableEq, Repr

/-- `Partial PluginConfig` — the shape of one configuration layer file as
consumed by `mergeConfig` in `lib/config.ts`. -/
structure PartialPluginConfig where
  enabled : Option Bool := none
  debug : Option Bool := none
  registry : Option PartialRegistryConfig := none
  pruning : Option PartialPruningConfig := none
  metrics : Option PartialMetricsConfig := none
  commands : Option PartialCommandsConfig := none
deriving DecidableEq, Repr

/-- `mergeConfig(base, override?)` from `lib/config.ts`: field-level merge,
`override.x ?? base.x` on every leaf, `if (!override) return base` on the
whole object. -/
def mergeConfig (base : PluginConfig) (override : Option PartialPluginConfig) :
    PluginConfig :=
  match override with
  | none => base
  | some o =>
    { enabled := o.enabled.getD base.enabled
      debug := o.debug.getD base.debug
      registry :=
        { enabled := (o.registry.bind (·.enabled)).getD base.registry.enabled
          path := (o.registry.bind (·.path)).getD base.registry.path }
      pruning :=
        { enabled := (o.pruning.bind (·.enabled)).getD base.pruning.enabled
          maxTokens := (o.pruning.bind (·.maxTokens)).getD base.pruning.maxTokens
          minTokens := (o.pruning.bind (·.minTokens)).getD base.pruning.minTokens }
      metrics :=
        { enabled := (o.metrics.bind (·.enabled)).getD base.metrics.enabled
          showInStatus := (o.metrics.bind (·.showInStatus)).getD base.metrics.showInStatus }
      commands :=
        { enabled := (o.commands.bind (·.enabled)).getD base.commands.enabled } }

/-- The leaf fields of `PluginConfig`, for stating per-field properties. -/
inductive ConfigField
  | enabled | debug
  | registryEnabled | registryPath
  | pruningEnabled | pruningMaxTokens | pruningMinTokens
  | metricsEnabled | metricsShowInStatus
  | commandsEnabled
deriving DecidableEq, Repr

/-- A leaf configuration value (boolean, number, or string). -/
inductive ConfigValue
  | b (x : Bool)
  | n (x : Nat)
  | s (x : String)
deriving DecidableEq, Repr

/-- Read one leaf field of a full configuration. -/
def getField (c : PluginConfig) : ConfigField → ConfigValue
  | .enabled => .b c.enabled
  | .debug => .b c.debug
  | .registryEnabled => .b c.registry.enabled
  | .registryPath => .s c.registry.path
  | .pruningEnabled => .b c.pruning.enabled
  | .pruningMaxTokens => .n c.pruning.maxTokens
  | .pruningMinTokens => .n c.pruning.minTokens
  | .metricsEnabled => .b c.metrics.enabled
  | .metricsShowInStatus => .b c.metrics.showInStatus
  | .commandsEnabled => .b c.commands.enabled

/-- Read one leaf field of a layer file; `none` means the layer does not
explicitly set that field (absent or `null`). -/
def getPartField (p : PartialPluginConfig) : ConfigField → Option ConfigValue
  | .enabled => p.enabled.map .b
  | .debug => p.debug.map .b
  | .registryEnabled => (p.registry.bind (·.enabled)).map .b
  | .registryPath => (p.registry.bind (·.path)).map .s
  | .pruningEnabled => (p.pruning.bind (·.enabled)).map .b
  | .pruningMaxTokens => (p.pruning.bind (·.maxTokens)).map .n
  | .pruningMinTokens => (p.pruning.bind (·.minTokens)).map .n
  | .metricsEnabled => (p.metrics.bind (·.enabled)).map .b
  | .metricsShowInStatus => (p.metrics.bind (·.showInStatus)).map .b
  | .commandsEnabled => (p.commands.bind (·.enabled)).map .b

/-- One configuration file location as seen by `getConfig`:
`none` = no file found at that location (`getConfigPaths` returned null),
`some none` = a file was found but `loadConfigFile` yielded no data
(read error, empty, or parse failure), `some (some p)` = parsed data `p`. -/
abbrev ConfigLayer := Option (Option PartialPluginConfig)

/-- Merge one location into the accumulated configuration, as the body of
`getConfig` does: merge only when the location has a file whose load
produced data. -/
def mergeLayer (c : PluginConfig) (layer : ConfigLayer) : PluginConfig :=
  match layer with
  | some (some d) => mergeConfig c (some d)
  | _ => c

/-- `getConfig(ctx)` from `lib/config.ts`, with the file system abstracted:
`global`, `configDir`, `project` describe what `getConfigPaths` +
`loadConfigFile` would observe at the three locations, and `writeOk`
whether the `createDefaultConfig()` bootstrap write would succeed.
When no global file exists, the source calls `createDefaultConfig()`
outside any try/catch, so a failing write propagates as an exception
(`Except.error`). -/
def getConfig (writeOk : Bool) (global configDir project : ConfigLayer) :
    Except Unit PluginConfig :=
  match global with
  | none =>
    if writeOk then
      Except.ok (mergeLayer (mergeLayer defaultConfig configDir) project)
    else
      Except.error ()
  | some g =>
    Except.ok
      (mergeLayer (mergeLayer (mergeLayer defaultConfig (some g)) configDir) project)

/-- A layer file that explicitly sets only `pruning.maxTokens`. -/
def onlyMaxTokens (m : Nat) : PartialPluginConfig :=
  { pruning := some { maxTokens := some m } }

/-- Example global layer: sets `pruning.maxTokens` to 500. -/
def exGlobalLayer : PartialPluginConfig := onlyMaxTokens 500

/-- Example project layer: sets `pruning.maxTokens` to 900. -/
def exProjectLayer : PartialPluginConfig := onlyMaxTokens 900

/-- The configuration `getConfig` resolves for the two example layers. -/
def exResolvedConfig : PluginConfig :=
  { defaultConfig with pruning := { enabled := true, maxTokens := 900, minTokens := 100 } }

/-! ## Tool definitions and JSON serialization

Registry files hold one JSON object `{name, description, parameters}`
each.  The `parameters` schema is an arbitrary JSON value that GhostGate
never inspects beyond `JSON.stringify` (for prompt injection and size
estimation); we model it as a flat string-valued JSON object, which is the
shape of the seeded `sys_info` example. -/

/-- One character of `JSON.stringify` string escaping. -/
def jsonEscapeChar (c : Char) : String :=
  if c = '"' then "\\\""
  else if c = '\\' then "\\\\"
  else if c = '\n' then "\\n"
  else if c = '\t' then "\\t"
  else if c = '\r' then "\\r"
  else String.singleton c

/-- `JSON.stringify` of a string value. -/
def jsonQuote (s : String) : String :=
  "\"" ++ String.join (s.data.map jsonEscapeChar) ++ "\""

/-- Comma-join, as `JSON.stringify` separates object members. -/
def joinComma : List String → String
  | [] => ""
  | [s] => s
  | s :: rest => s ++ "," ++ joinComma rest

/-- `JSON.stringify` of a flat string-valued object. -/
def stringifyFlatObj (fields : List (String × String)) : String :=
  "\x7b" ++ joinComma (fields.map (fun kv => jsonQuote kv.1 ++ ":" ++ jsonQuote kv.2)) ++ "\x7d"

/-- A parsed registry definition `{name, description, parameters}`. -/
structure ToolDef where
  name : String
  description : String
  parameters : List (String × String)
deriving DecidableEq, Repr

/-- `JSON.stringify` of a whole parsed definition (source key order:
`name`, `description`, `parameters`). -/
def ToolDef.stringify (d : ToolDef) : String :=
  "\x7b\"name\":" ++ jsonQuote d.name ++
    ",\"description\":" ++ jsonQuote d.description ++
    ",\"parameters\":" ++ stringifyFlatObj d.parameters ++ "\x7d"

/-- `estimateTokenCount(text)` from `lib/commands/status.ts`:
`Math.ceil(text.length / 4)`. -/
def estimateTokenCount (text : String) : Nat :=
  (text.length + 3) / 4

/-- `estimateSchemaTokens(schema)` from `lib/commands/status.ts`:
`estimateTokenCount(JSON.stringify(schema))`, applied by
`activate_ghost_tool` to the whole registry entry. -/
def estimateSchemaTokens (d : ToolDef) : Nat :=
  estimateTokenCount d.stringify

/-! ## RegistryCatalog (`getRegistry` in `index.ts`) -/

/-- `str.endsWith(sub)` on JS strings. -/
def strEndsWith (s sub : String) : Bool :=
  sub.data.isSuffixOf s.data

/-- `str.includes(sub)` on JS strings. -/
def strContains (s sub : String) : Bool :=
  decide (sub.data <:+: s.data)

/-- The in-memory registry: a JS object used as a name-to-definition map,
i.e. an insertion-ordered association list without duplicate keys. -/
abbrev Registry := List (String × ToolDef)

/-- `Object.keys` of the registry object. -/
def regKeys (reg : Registry) : List String := reg.map Prod.fst

/-- JS property assignment `registry[k] = v`: an existing key keeps its
position and gets the new value, a new key is appended. -/
def regInsert (reg : Registry) (k : String) (v : ToolDef) : Registry :=
  if (regKeys reg).contains k then
    reg.map (fun kv => if kv.1 = k then (k, v) else kv)
  else reg ++ [(k, v)]

/-- `registry[k]` lookup. -/
def lookupReg (reg : Registry) (k : String) : Option ToolDef :=
  List.lookup k reg

/-- One directory entry of the registry directory: its filename and the
outcome of `JSON.parse` on its content (`none` = `JSON.parse` throws). -/
structure RegFile where
  filename : String
  parsed : Option ToolDef
deriving DecidableEq, Repr

/-- The loop body of `getRegistry`: walk the directory listing, and for
each `.json` file parse it and assign `registry[parsed.name] = parsed`.
`JSON.parse` throwing escapes the loop to the surrounding catch
(`none`). -/
def getRegistryAux : List RegFile → Registry → Option Registry
  | [], acc => some acc
  | f :: rest, acc =>
    if strEndsWith f.filename ".json" then
      match f.parsed with
      | none => none
      | some d => getRegistryAux rest (regInsert acc d.name d)
    else getRegistryAux rest acc

/-- `getRegistry()` from `index.ts`: the whole directory walk sits in one
try/catch whose catch returns the empty object. -/
def getRegistry (files : List RegFile) : Registry :=
  (getRegistryAux files []).getD []

/-- Modelled from the spec words for comparison: a loader that skips any
file which fails to parse and keeps the definitions of all files that do
parse (spec: files that fail to parse are skipped, not fatal). -/
def specSkipLoad : List RegFile → Registry → Registry
  | [], acc => acc
  | f :: rest, acc =>
    if strEndsWith f.filename ".json" then
      match f.parsed with
      | none => specSkipLoad rest acc
      | some d => specSkipLoad rest (regInsert acc d.name d)
    else specSkipLoad rest acc

/-- Example good definition used in registry counterexamples. -/
def exGoodDef : ToolDef :=
  { name := "alpha", description := "First tool", parameters := [("arg", "string")] }

/-- Example directory: one parseable file and one file whose content makes
`JSON.parse` throw. -/
def exRegFiles : List RegFile :=
  [{ filename := "alpha.json", parsed := some exGoodDef },
   { filename := "bad.json", parsed := none }]

/-- A registry directory with only the parseable file. -/
def exGoodFiles : List RegFile :=
  [{ filename := "alpha.json", parsed := some exGoodDef }]

/-! ## Catalog search (`search_ghost_tools` in `index.ts`)

The tool body computes `Object.keys(registry).filter(n => n.includes(query))`
and wraps the result in a plain-text message; we model the computed match
list. -/

/-- The match list computed by the `search_ghost_tools` tool. -/
def searchGhostTools (reg : Registry) (query : String) : List String :=
  (regKeys reg).filter (fun n => strContains n query)

/-- Modelled from the spec words for comparison: search by substring match
over name and description. -/
def specSearchMatches (reg : Registry) (query : String) : List String :=
  (reg.filter (fun kv =>
    strContains kv.1 query || strContains kv.2.description query)).map Prod.fst

/-- Registry used in the search counterexample: the only definition has a
description containing the query, but a name that does not. -/
def exSearchReg : Registry :=
  [("alpha", { name := "alpha", description := "database helper", parameters := [] })]

/-! ## ActivationState (`lib/commands/status.ts`, `index.ts`) -/

/-- `TokenMetrics` from `lib/commands/status.ts`; `lastReset` is the `Date`
timestamp in milliseconds. -/
structure TokenMetrics where
  toolsActivated : Nat
  schemasInjected : Nat
  estimatedTokensSaved : Int
  toolCallsIntercepted : Nat
  contextPrunes : Nat
  lastReset : Nat
deriving DecidableEq, Repr

/-- `createTokenMetrics()`: all counters zero, `lastReset` = now. -/
def createTokenMetrics (now : Nat) : TokenMetrics :=
  { toolsActivated := 0
    schemasInjected := 0
    estimatedTokensSaved := 0
    toolCallsIntercepted := 0
    contextPrunes := 0
    lastReset := now }

/-- `GhostGateState` from `lib/commands/status.ts`; `activeTools` is a JS
`Set<string>`: insertion-ordered and duplicate-free. -/
structure GhostGateState where
  activeTools : List String
  lastStatus : String
  tokenMetrics : TokenMetrics
deriving DecidableEq, Repr

/-- `Set.add`: a no-op when the element is present, else appended. -/
def setAdd (l : List String) (x : String) : List String :=
  if l.contains x then l else l ++ [x]

/-- Outcome of `activate_ghost_tool` (the plain-text messages of the source
are abstracted into constructors). -/
inductive ActivateOutcome
  | notFound
  | activated
deriving DecidableEq, Repr

/-- `activate_ghost_tool` from `index.ts`: against a fresh registry read,
a missing name returns the not-found message with the state unchanged; a
present name is added to `activeTools`, `toolsActivated` is incremented
and `estimatedTokensSaved` is decremented by the estimated token size of
the registry entry. -/
def activateGhostTool (reg : Registry) (st : GhostGateState) (toolName : String) :
    GhostGateState × ActivateOutcome :=
  match lookupReg reg toolName with
  | none => (st, .notFound)
  | some d =>
    ({ st with
        activeTools := setAdd st.activeTools toolName
        tokenMetrics := { st.tokenMetrics with
          toolsActivated := st.tokenMetrics.toolsActivated + 1
          estimatedTokensSaved :=
            st.tokenMetrics.estimatedTokensSaved - (estimateSchemaTokens d : Int) } },
     .activated)

/-- The seeded example definition from the bootstrap step of `index.ts`. -/
def exSysInfo : ToolDef :=
  { name := "sys_info"
    description := "Retrieves comprehensive system metrics."
    parameters := [("detail_level", "string")] }

/-- A state in which `sys_info` is already active. -/
def exActiveState : GhostGateState :=
  { activeTools := ["sys_info"]
    lastStatus := "initialized"
    tokenMetrics := createTokenMetrics 0 }

/-! ## Status command handler (`command.execute.before` for `status`) -/

/-- The state effect of handling `/ghostgate status`: the handler computes
`inactiveCount = Object.keys(registry).length - state.activeTools.size` and
adds `inactiveCount * 200` to `estimatedTokensSaved` before rendering the
report. -/
def statusCommand (st : GhostGateState) (registryCount : Nat) : GhostGateState :=
  let inactiveCount : Int := (registryCount : Int) - (st.activeTools.length : Int)
  { st with tokenMetrics := { st.tokenMetrics with
      estimatedTokensSaved := st.tokenMetrics.estimatedTokensSaved + inactiveCount * 200 } }

/-- A fresh state with no active tools. -/
def exStatusState : GhostGateState :=
  { activeTools := []
    lastStatus := "initialized"
    tokenMetrics := createTokenMetrics 0 }

/-! ## PruningEngine (`pruneToolResult` in `index.ts` / compiled `index.js`)

The engine applies four global regex replacements in order, then a
character-budget truncation.  Replacement callbacks dispatch on the regex
source text: pass 1 rewrites whitespace runs to a single space, pass 2
rewrites code-fence markers to a canonical empty-language fence, pass 3
collapses three or more newlines to two, and the fourth callback falls
through and returns the match itself, so pass 4 rewrites nothing. -/

/-- The backquote character (code 96), the code-fence delimiter. -/
def bq : Char := Char.ofNat 96

/-- The characters matched by the JS regex class `\s`. -/
def isJsSpace (c : Char) : Bool :=
  c = ' ' || (0x09 ≤ c.toNat && c.toNat ≤ 0x0d) || c.toNat = 0xa0 ||
  c.toNat = 0x1680 || (0x2000 ≤ c.toNat && c.toNat ≤ 0x200a) ||
  c.toNat = 0x2028 || c.toNat = 0x2029 || c.toNat = 0x202f ||
  c.toNat = 0x205f || c.toNat = 0x3000 || c.toNat = 0xfeff

/-- The characters matched by the JS regex class `\w`. -/
def isJsWordChar (c : Char) : Bool :=
  ('a' ≤ c && c ≤ 'z') || ('A' ≤ c && c ≤ 'Z') || ('0' ≤ c && c ≤ '9') || c = '_'

/-- Pass 1, `replace(/\s+/g, ' ')`: every whitespace run becomes one space.
`inRun` records whether the previous character was part of a run already
replaced. -/
def collapseWSGo : Bool → List Char → List Char
  | _, [] => []
  | inRun, c :: rest =>
    if isJsSpace c then
      if inRun then collapseWSGo true rest else ' ' :: collapseWSGo true rest
    else c :: collapseWSGo false rest

/-- Pass 1 from the start of the text. -/
def collapseWS (l : List Char) : List Char := collapseWSGo false l

/-- Pass 2, `replace` of three backquotes followed by `[\w]*` and an
optional newline, rewritten to three backquotes plus a newline.  `skip`
records that the scanner is consuming the word-character tail of a match. -/
def fenceGo : Bool → List Char → List Char
  | _, [] => []
  | skip, c :: rest =>
    if c = bq then
      match rest with
      | c2 :: c3 :: rest3 =>
        if c2 = bq && c3 = bq then
          bq :: bq :: bq :: '\n' :: fenceGo true rest3
        else c :: fenceGo false (c2 :: c3 :: rest3)
      | short => c :: fenceGo false short
    else if skip then
      if isJsWordChar c then fenceGo true rest
      else if c = '\n' then fenceGo false rest
      else c :: fenceGo false rest
    else c :: fenceGo false rest

/-- Pass 3, `replace` of three-or-more newlines by exactly two: `n` counts
the newlines already seen in the current run; the first two are kept. -/
def collapseNLGo : Nat → List Char → List Char
  | _, [] => []
  | n, c :: rest =>
    if c = '\n' then
      if n < 2 then '\n' :: collapseNLGo (n + 1) rest else collapseNLGo (n + 1) rest
    else c :: collapseNLGo 0 rest

/-- Pass 4: the list-marker regex replacement whose callback returns the
match unchanged, hence the identity rewrite. -/
def markerPass (l : List Char) : List Char := l

/-- The four-pass pipeline of `pruneToolResult`, in source order. -/
def normalizeChars (l : List Char) : List Char :=
  markerPass (collapseNLGo 0 (fenceGo false (collapseWS l)))

/-- The pipeline on strings. -/
def normalizeStr (s : String) : String := String.mk (normalizeChars s.data)

/-- The fixed disclosure suffix appended on truncation, stating the
original length in characters. -/
def truncSuffix (originalLen : Nat) : String :=
  "\n\n[GhostGate: Result truncated to save tokens. Original length: " ++
    toString originalLen ++ " chars]"

/-- The result record of `pruneToolResult`. -/
structure PruneResult where
  pruned : String
  tokensSaved : Int
deriving DecidableEq, Repr

/-- `pruneToolResult(result, toolName)` from the compiled `index.js` (the
`index.ts` at the repository root inlines the default values
`maxTokens = 2000`, `minTokens = 100` and omits the enabled check; the
`toolName` argument is unused by the body). -/
def pruneToolResult (cfg : PruningConfig) (result : String) : PruneResult :=
  if !cfg.enabled then
    { pruned := result, tokensSaved := 0 }
  else if estimateTokenCount result < cfg.minTokens then
    { pruned := result, tokensSaved := 0 }
  else
    let normalized := normalizeStr result
    let maxChars := cfg.maxTokens * 4
    let pruned :=
      if normalized.length > maxChars then
        String.mk (normalized.data.take maxChars) ++ truncSuffix result.length
      else normalized
    { pruned := pruned
      tokensSaved :=
        max 0 ((estimateTokenCount result : Int) - (estimateTokenCount pruned : Int)) }

/-- A pruning configuration under which the engine always engages and never
truncates short inputs. -/
def exPruneCfg : PruningConfig := { enabled := true, maxTokens := 1000, minTokens := 0 }

/-- A 404-character input (fence, dot, 400 letters) that also engages the
engine under the default configuration (estimate 101 ≥ 100). -/
def exLongFence : String := "```." ++ String.mk (List.replicate 400 'a')

/-- The head of the list is not whitespace (or the list is empty). -/
def headNotWS : List Char → Bool
  | [] => true
  | c :: _ => !isJsSpace c

/-- Whitespace-canonical: every whitespace character is a single space not
followed by further whitespace — the form pass 1 produces. -/
def goodWS : List Char → Bool
  | [] => true
  | c :: rest => (!isJsSpace c || (c == ' ' && headNotWS rest)) && goodWS rest

/-! ## Theorems -/

theorem opt_map_getD {α β : Type} (o : Option α) (g : α → β) (x : α) :
    (o.map g).getD (g x) = g (o.getD x) := by
  cases o <;> rfl

/-- Per-field reading of `mergeConfig`: the merged value of a field is the
override value when the override sets it, else the base value. -/
theorem getField_mergeConfig (b : PluginConfig) (o : PartialPluginConfig)
    (f : ConfigField) :
    getField (mergeConfig b (some o)) f = (getPartField o f).getD (getField b f) := by
  cases f <;> exact (opt_map_getD _ _ _).symm

/-- C1: configuration precedence — for every field explicitly set in both the
global-layer file and the project-layer file, the configuration returned by
`getConfig` carries the project layer value of that field. -/
theorem C1_config_precedence
    (wr : Bool) (g : PartialPluginConfig) (cd : ConfigLayer)
    (p : PartialPluginConfig) (f : ConfigField) (v w : ConfigValue)
    (c : PluginConfig)
    (_hg : getPartField g f = some v)
    (hp : getPartField p f = some w)
    (hc : getConfig wr (some (some g)) cd (some (some p)) = Except.ok c) :
    getField c f = w := by
  have hc2 :
      c = mergeConfig (mergeLayer (mergeConfig defaultConfig (some g)) cd) (some p) := by
    simpa [getConfig, mergeLayer] using hc.symm
  subst hc2
  rw [getField_mergeConfig, hp]
  rfl

/-- C1 witness: with `pruning.maxTokens` set to 500 globally and 900 in the
project layer, the resolved configuration has `maxTokens = 900`. -/
theorem C1_config_precedence_witness :
    getPartField exGlobalLayer .pruningMaxTokens = some (.n 500) ∧
    getPartField exProjectLayer .pruningMaxTokens = some (.n 900) ∧
    getField exResolvedConfig .pruningMaxTokens = .n 900 :=
  ⟨rfl, rfl,
    C1_config_precedence true exGlobalLayer none exProjectLayer
      .pruningMaxTokens (.n 500) (.n 900) exResolvedConfig rfl rfl rfl⟩

/-- C2: merging is field-level — an override that sets only
`pruning.maxTokens` changes exactly that field of the base configuration,
and an override field that is absent/null never changes the base value. -/
theorem C2_merge_field_level
    (b : PluginConfig) (m : Nat) (o : PartialPluginConfig) (f : ConfigField)
    (hnone : getPartField o f = none) :
    mergeConfig b (some (onlyMaxTokens m)) =
      { b with pruning := { b.pruning with maxTokens := m } } ∧
    getField (mergeConfig b (some o)) f = getField b f := by
  constructor
  · rfl
  · rw [getField_mergeConfig, hnone]
    rfl

/-- C2 witness: overriding `defaultConfig` with a layer setting only
`pruning.maxTokens := 5` yields the expected configuration, and a layer
leaving `enabled` unset keeps `enabled` at the base value. -/
theorem C2_merge_field_level_witness :
    mergeConfig defaultConfig (some (onlyMaxTokens 5)) =
      { defaultConfig with
          pruning := { defaultConfig.pruning with maxTokens := 5 } } ∧
    getField (mergeConfig defaultConfig (some {})) .enabled =
      getField defaultConfig .enabled :=
  C2_merge_field_level defaultConfig 5 {} .enabled rfl

/-- C4 (code bug evidence): when no global configuration file exists and the
bootstrap write performed by `createDefaultConfig()` fails, `getConfig`
propagates the failure instead of returning an effective configuration —
the `createDefaultConfig()` call sits outside any try/catch. -/
theorem C4_bootstrap_write_failure_aborts :
    getConfig false none none none = Except.error () := rfl

theorem getRegistryAux_of_bad (files : List RegFile) (acc : Registry)
    (h : ∃ f ∈ files, strEndsWith f.filename ".json" = true ∧ f.parsed = none) :
    getRegistryAux files acc = none := by
  induction files generalizing acc with
  | nil => simp at h
  | cons f rest ih =>
    rcases h with ⟨g, hg, hjson, hparse⟩
    rcases List.mem_cons.mp hg with rfl | hmem
    · simp [getRegistryAux, hjson, hparse]
    · unfold getRegistryAux
      split
      · cases hp : f.parsed with
        | none => rfl
        | some d => exact ih _ ⟨g, hmem, hjson, hparse⟩
      · exact ih _ ⟨g, hmem, hjson, hparse⟩

theorem getRegistryAux_of_good (files : List RegFile) (acc : Registry)
    (h : ∀ f ∈ files, strEndsWith f.filename ".json" = true → f.parsed ≠ none) :
    getRegistryAux files acc = some (specSkipLoad files acc) := by
  induction files generalizing acc with
  | nil => rfl
  | cons f rest ih =>
    unfold getRegistryAux specSkipLoad
    split
    · cases hp : f.parsed with
      | none =>
        exact absurd hp (h f (List.mem_cons_self f rest) (by assumption))
      | some d =>
        exact ih _ (fun g hg => h g (List.mem_cons_of_mem f hg))
    · exact ih _ (fun g hg => h g (List.mem_cons_of_mem f hg))

/-- C3 counterexample: a directory with one parseable file and one
unparseable file — `getRegistry` drops the good definition too (it returns
the empty mapping), while the spec-worded loader keeps it. -/
theorem C3_bad_file_drops_good_files :
    getRegistry exRegFiles = [] ∧
    specSkipLoad exRegFiles [] = [("alpha", exGoodDef)] ∧
    getRegistry exRegFiles ≠ specSkipLoad exRegFiles [] := by
  refine ⟨rfl, rfl, ?_⟩
  decide

/-- C3 amended: if some `.json` file in the directory fails to parse, the
catalog load returns the empty mapping (not a partial one); when every
`.json` file parses, the load returns exactly the definitions the
skip-semantics loader would produce. -/
theorem C3_parse_failure_all_or_nothing (files : List RegFile) :
    ((∃ f ∈ files, strEndsWith f.filename ".json" = true ∧ f.parsed = none) →
      getRegistry files = []) ∧
    ((∀ f ∈ files, strEndsWith f.filename ".json" = true → f.parsed ≠ none) →
      getRegistry files = specSkipLoad files []) := by
  constructor
  · intro h
    unfold getRegistry
    rw [getRegistryAux_of_bad files [] h]
    rfl
  · intro h
    unfold getRegistry
    rw [getRegistryAux_of_good files [] h]
    rfl

/-- C3 amended witness: on the mixed directory the load returns the empty
mapping; on the all-good directory it returns the good definition. -/
theorem C3_parse_failure_all_or_nothing_witness :
    getRegistry exRegFiles = [] ∧
    getRegistry exGoodFiles = [("alpha", exGoodDef)] :=
  ⟨(C3_parse_failure_all_or_nothing exRegFiles).1 (by decide),
   (C3_parse_failure_all_or_nothing exGoodFiles).2 (by decide)⟩

/-- C8 counterexample: for the query `database`, the code returns no match
even though the sole definition has a description containing the query, so
search does not match over descriptions. -/
theorem C8_search_ignores_description :
    searchGhostTools exSearchReg "database" = [] ∧
    specSearchMatches exSearchReg "database" = ["alpha"] ∧
    searchGhostTools exSearchReg "database" ≠ specSearchMatches exSearchReg "database" := by
  refine ⟨by decide, by decide, ?_⟩
  decide

/-- C8 amended: search returns exactly the tools whose name contains the
query as a substring; descriptions are not searched. -/
theorem C8_search_by_name_substring (reg : Registry) (query n : String) :
    n ∈ searchGhostTools reg query ↔
      n ∈ regKeys reg ∧ strContains n query = true := by
  simp [searchGhostTools, List.mem_filter]

/-- C10: re-activation is cumulative — for a name already active and still
present in a fresh catalog read, activating again leaves `activeTools`
unchanged but increments `toolsActivated` once more and decrements
`estimatedTokensSaved` again by the schema estimate. -/
theorem C10_reactivation_cumulative
    (reg : Registry) (st : GhostGateState) (toolName : String) (d : ToolDef)
    (hactive : st.activeTools.contains toolName = true)
    (hreg : lookupReg reg toolName = some d) :
    (activateGhostTool reg st toolName).1.activeTools = st.activeTools ∧
    (activateGhostTool reg st toolName).1.tokenMetrics.toolsActivated =
      st.tokenMetrics.toolsActivated + 1 ∧
    (activateGhostTool reg st toolName).1.tokenMetrics.estimatedTokensSaved =
      st.tokenMetrics.estimatedTokensSaved - (estimateSchemaTokens d : Int) ∧
    (activateGhostTool reg st toolName).2 = .activated := by
  unfold activateGhostTool
  rw [hreg]
  refine ⟨?_, rfl, rfl, rfl⟩
  have hmem : toolName ∈ st.activeTools := by simpa using hactive
  simp [setAdd, hmem]

/-- C10 witness: re-activating the already-active `sys_info` keeps
`activeTools` at `["sys_info"]`, bumps `toolsActivated` to 1 and debits the
schema estimate again. -/
theorem C10_reactivation_cumulative_witness :
    (activateGhostTool [("sys_info", exSysInfo)] exActiveState "sys_info").1.activeTools =
      ["sys_info"] ∧
    (activateGhostTool [("sys_info", exSysInfo)] exActiveState "sys_info").1.tokenMetrics.toolsActivated = 1 ∧
    (activateGhostTool [("sys_info", exSysInfo)] exActiveState "sys_info").1.tokenMetrics.estimatedTokensSaved =
      0 - (estimateSchemaTokens exSysInfo : Int) ∧
    (activateGhostTool [("sys_info", exSysInfo)] exActiveState "sys_info").2 = .activated :=
  C10_reactivation_cumulative [("sys_info", exSysInfo)] exActiveState "sys_info"
    exSysInfo (by decide) (by decide)

/-- C5 counterexample: handling `status` against a one-entry catalog with no
active tools changes the state — `estimatedTokensSaved` moves from 0 to
200 — so status reporting is not read-only. -/
theorem C5_status_mutates_state :
    statusCommand exStatusState 1 ≠ exStatusState ∧
    (statusCommand exStatusState 1).tokenMetrics.estimatedTokensSaved = 200 := by
  refine ⟨?_, by decide⟩
  decide

/-- C5 amended: the `status` handler adds
`(catalogSize - activeCount) * 200` to `estimatedTokensSaved` and leaves
`activeTools`, `lastStatus` and every other metric field unchanged. -/
theorem C5_status_effect (st : GhostGateState) (registryCount : Nat) :
    (statusCommand st registryCount).activeTools = st.activeTools ∧
    (statusCommand st registryCount).lastStatus = st.lastStatus ∧
    (statusCommand st registryCount).tokenMetrics.toolsActivated =
      st.tokenMetrics.toolsActivated ∧
    (statusCommand st registryCount).tokenMetrics.schemasInjected =
      st.tokenMetrics.schemasInjected ∧
    (statusCommand st registryCount).tokenMetrics.toolCallsIntercepted =
      st.tokenMetrics.toolCallsIntercepted ∧
    (statusCommand st registryCount).tokenMetrics.contextPrunes =
      st.tokenMetrics.contextPrunes ∧
    (statusCommand st registryCount).tokenMetrics.lastReset =
      st.tokenMetrics.lastReset ∧
    (statusCommand st registryCount).tokenMetrics.estimatedTokensSaved =
      st.tokenMetrics.estimatedTokensSaved +
        ((registryCount : Int) - (st.activeTools.length : Int)) * 200 :=
  ⟨rfl, rfl, rfl, rfl, rfl, rfl, rfl, rfl⟩

/-- C7: pruning floor — an input whose heuristic token estimate is below
`minTokens` is returned unchanged with `tokensSaved = 0`. -/
theorem C7_pruning_floor (cfg : PruningConfig) (s : String)
    (h : estimateTokenCount s < cfg.minTokens) :
    pruneToolResult cfg s = { pruned := s, tokensSaved := 0 } := by
  cases hen : cfg.enabled <;> simp [pruneToolResult, hen, h]

/-- C7 witness: a 5-character input against the default pruning
configuration (estimate 2, floor 100) passes through unchanged. -/
theorem C7_pruning_floor_witness :
    pruneToolResult defaultConfig.pruning "short" =
      { pruned := "short", tokensSaved := 0 } :=
  C7_pruning_floor defaultConfig.pruning "short" (by decide)

/-- C6: truncation budget — when the engine engages and the rewritten text
exceeds `maxTokens * 4` characters, the returned text is that text cut to
exactly `maxTokens * 4` characters followed by the disclosure suffix, and
the suffix states the original character length of the input. -/
theorem C6_truncation_budget (cfg : PruningConfig) (s : String)
    (hen : cfg.enabled = true)
    (hfloor : cfg.minTokens ≤ estimateTokenCount s)
    (hlong : cfg.maxTokens * 4 < (normalizeStr s).length) :
    (pruneToolResult cfg s).pruned =
      String.mk ((normalizeStr s).data.take (cfg.maxTokens * 4)) ++
        ("\n\n[GhostGate: Result truncated to save tokens. Original length: " ++
          toString s.length ++ " chars]") ∧
    (String.mk ((normalizeStr s).data.take (cfg.maxTokens * 4))).length =
      cfg.maxTokens * 4 := by
  constructor
  · simp [pruneToolResult, hen, Nat.not_lt.mpr hfloor, hlong, truncSuffix]
  · have hdata : (normalizeStr s).length = (normalizeStr s).data.length := rfl
    have : (String.mk ((normalizeStr s).data.take (cfg.maxTokens * 4))).length =
        ((normalizeStr s).data.take (cfg.maxTokens * 4)).length := rfl
    rw [this, List.length_take]
    omega

/-- C6 witness: with `maxTokens = 1` and a 9-character whitespace-free
input, the result is the 4-character prefix plus the disclosure suffix
naming the original length 9. -/
theorem C6_truncation_budget_witness :
    (pruneToolResult { enabled := true, maxTokens := 1, minTokens := 0 }
        "abcdefghi").pruned =
      String.mk ((normalizeStr "abcdefghi").data.take 4) ++
        ("\n\n[GhostGate: Result truncated to save tokens. Original length: " ++
          toString (String.length "abcdefghi") ++ " chars]") ∧
    (String.mk ((normalizeStr "abcdefghi").data.take 4)).length = 4 :=
  C6_truncation_budget { enabled := true, maxTokens := 1, minTokens := 0 }
    "abcdefghi" rfl (by decide) (by decide)

set_option maxRecDepth 10000 in
/-- C9 counterexample: pruning is not idempotent.  On the four-character
input consisting of a code fence followed by a dot, the first pass yields
fence-newline-dot; the second pass turns the newline into a space and then
re-inserts a newline after the fence, yielding fence-newline-space-dot.
The same happens under the default configuration on a 404-character input
long enough to clear the default floor of 100 tokens. -/
theorem C9_prune_not_idempotent :
    ((pruneToolResult exPruneCfg
        (pruneToolResult exPruneCfg "```.").pruned).pruned ≠
      (pruneToolResult exPruneCfg "```.").pruned ∧
    (pruneToolResult exPruneCfg "```.").pruned = "```\n." ∧
    (pruneToolResult exPruneCfg
        (pruneToolResult exPruneCfg "```.").pruned).pruned = "```\n .") ∧
    (pruneToolResult defaultConfig.pruning
        (pruneToolResult defaultConfig.pruning exLongFence).pruned).pruned ≠
      (pruneToolResult defaultConfig.pruning exLongFence).pruned := by
  refine ⟨⟨?_, ?_, ?_⟩, ?_⟩ <;> decide

/-! Supporting lemmas for the amended idempotence statement: pass 1 output
is whitespace-canonical and pass 1 is idempotent; passes 2 and 3 are the
identity on fence-free and newline-free text respectively. -/

theorem mem_collapseWSGo {c : Char} {b : Bool} {l : List Char}
    (h : c ∈ collapseWSGo b l) : c ∈ l ∨ c = ' ' := by
  induction l generalizing b with
  | nil => simp [collapseWSGo] at h
  | cons d rest ih =>
    by_cases hd : isJsSpace d = true
    · cases b with
      | true =>
        simp only [collapseWSGo, hd, if_true] at h
        rcases ih h with h1 | h1
        · exact Or.inl (List.mem_cons_of_mem d h1)
        · exact Or.inr h1
      | false =>
        simp only [collapseWSGo, hd, if_true] at h
        rcases List.mem_cons.mp h with rfl | h1
        · exact Or.inr rfl
        · rcases ih h1 with h2 | h2
          · exact Or.inl (List.mem_cons_of_mem d h2)
          · exact Or.inr h2
    · simp only [collapseWSGo, hd, if_false, Bool.false_eq_true] at h
      rcases List.mem_cons.mp h with rfl | h1
      · exact Or.inl (List.mem_cons_self _ _)
      · rcases ih h1 with h2 | h2
        · exact Or.inl (List.mem_cons_of_mem d h2)
        · exact Or.inr h2

theorem space_mem_collapseWSGo {c : Char} {b : Bool} {l : List Char}
    (h : c ∈ collapseWSGo b l) (hsp : isJsSpace c = true) : c = ' ' := by
  induction l generalizing b with
  | nil => simp [collapseWSGo] at h
  | cons d rest ih =>
    by_cases hd : isJsSpace d = true
    · cases b with
      | true =>
        simp only [collapseWSGo, hd, if_true] at h
        exact ih h
      | false =>
        simp only [collapseWSGo, hd, if_true] at h
        rcases List.mem_cons.mp h with rfl | h1
        · rfl
        · exact ih h1
    · simp only [collapseWSGo, hd, if_false, Bool.false_eq_true] at h
      rcases List.mem_cons.mp h with rfl | h1
      · exact absurd hsp hd
      · exact ih h1

theorem no_bq_collapseWSGo {l : List Char} (h : bq ∉ l) (b : Bool) :
    bq ∉ collapseWSGo b l :=
  fun hm => (mem_collapseWSGo hm).elim h (fun he => absurd he (by decide))

theorem no_nl_collapseWSGo (l : List Char) (b : Bool) :
    Char.ofNat 10 ∉ collapseWSGo b l := fun hm => by
  have := space_mem_collapseWSGo hm (by decide)
  exact absurd this (by decide)

theorem headNotWS_collapseWSGo_true (l : List Char) :
    headNotWS (collapseWSGo true l) = true := by
  induction l with
  | nil => rfl
  | cons c rest ih =>
    by_cases hc : isJsSpace c = true
    · simpa [collapseWSGo, hc] using ih
    · simp [collapseWSGo, hc, headNotWS]

theorem goodWS_collapseWSGo (l : List Char) (b : Bool) :
    goodWS (collapseWSGo b l) = true := by
  induction l generalizing b with
  | nil => rfl
  | cons c rest ih =>
    by_cases hc : isJsSpace c = true
    · cases b with
      | true => simpa [collapseWSGo, hc] using ih true
      | false =>
        simp [collapseWSGo, hc, goodWS, headNotWS_collapseWSGo_true, ih true]
    · simp [collapseWSGo, hc, goodWS, ih false]

theorem collapseWSGo_of_goodWS (l : List Char) (h : goodWS l = true) :
    collapseWSGo false l = l ∧ (headNotWS l = true → collapseWSGo true l = l) := by
  induction l with
  | nil => exact ⟨rfl, fun _ => rfl⟩
  | cons c rest ih =>
    simp only [goodWS, Bool.and_eq_true] at h
    obtain ⟨hc, hrest⟩ := h
    obtain ⟨ih1, ih2⟩ := ih hrest
    by_cases hsp : isJsSpace c = true
    · have h2 : c = ' ' ∧ headNotWS rest = true := by
        simp only [hsp, Bool.not_true, Bool.false_or, Bool.and_eq_true, beq_iff_eq] at hc
        exact hc
      obtain ⟨hceq, hhead⟩ := h2
      subst hceq
      constructor
      · rw [show collapseWSGo false (' ' :: rest) = ' ' :: collapseWSGo true rest from by
              simp [collapseWSGo, hsp]]
        rw [ih2 hhead]
      · intro hh
        exact absurd hh (by simp [headNotWS, hsp])
    · constructor
      · simp [collapseWSGo, hsp, ih1]
      · intro _
        simp [collapseWSGo, hsp, ih1]

theorem collapseWS_idem (l : List Char) :
    collapseWSGo false (collapseWSGo false l) = collapseWSGo false l :=
  (collapseWSGo_of_goodWS _ (goodWS_collapseWSGo l false)).1

theorem fenceGo_false_cons (c : Char) (rest : List Char) (hc : ¬c = bq) :
    fenceGo false (c :: rest) = c :: fenceGo false rest := by
  match rest with
  | [] => rw [fenceGo.eq_def]; simp [hc]
  | [c2] => rw [fenceGo.eq_def]; simp [hc]
  | c2 :: c3 :: rest3 => rw [fenceGo.eq_2]; simp [hc]

theorem fenceGo_id_of_no_bq (l : List Char) (h : bq ∉ l) :
    fenceGo false l = l := by
  induction l with
  | nil => rfl
  | cons c rest ih =>
    have hc : ¬c = bq := fun e => h (e ▸ List.mem_cons_self c rest)
    rw [fenceGo_false_cons c rest hc, ih (fun hm => h (List.mem_cons_of_mem c hm))]

theorem collapseNLGo_id_of_no_nl (l : List Char) (h : Char.ofNat 10 ∉ l) (n : Nat) :
    collapseNLGo n l = l := by
  induction l generalizing n with
  | nil => rfl
  | cons c rest ih =>
    have hc : ¬c = '\n' := fun e => h (by rw [← e]; exact List.mem_cons_self c rest)
    simp [collapseNLGo, hc, ih (fun hm => h (List.mem_cons_of_mem c hm)) 0]

theorem normalizeChars_of_no_bq (l : List Char) (h : bq ∉ l) :
    normalizeChars l = collapseWS l := by
  unfold normalizeChars markerPass collapseWS
  rw [fenceGo_id_of_no_bq _ (no_bq_collapseWSGo h false),
      collapseNLGo_id_of_no_nl _ (no_nl_collapseWSGo l false) 0]

theorem normalizeChars_idem (l : List Char) (h : bq ∉ l) :
    normalizeChars (normalizeChars l) = normalizeChars l := by
  rw [normalizeChars_of_no_bq l h]
  rw [normalizeChars_of_no_bq (collapseWS l) (no_bq_collapseWSGo h false)]
  exact collapseWS_idem l

/-- C9 amended: pruning is not idempotent in general (see the
counterexample), but it is idempotent on every input that contains no
backquote character and whose rewritten text fits inside the truncation
budget: re-pruning the pruned text returns it unchanged. -/
theorem C9_prune_idempotent_no_fence (cfg : PruningConfig) (s : String)
    (hnb : bq ∉ s.data)
    (hfit : (normalizeStr s).length ≤ cfg.maxTokens * 4) :
    (pruneToolResult cfg (pruneToolResult cfg s).pruned).pruned =
      (pruneToolResult cfg s).pruned := by
  by_cases hen : cfg.enabled = true
  case neg =>
    have hen' : cfg.enabled = false := by
      cases h : cfg.enabled
      · rfl
      · exact absurd h hen
    simp [pruneToolResult, hen']
  case pos =>
    have hnottrunc : ¬((normalizeStr s).length > cfg.maxTokens * 4) :=
      not_lt.mpr hfit
    by_cases hfl : estimateTokenCount s < cfg.minTokens
    · simp [pruneToolResult, hen, hfl]
    · have h1 : (pruneToolResult cfg s).pruned = normalizeStr s := by
        simp [pruneToolResult, hen, hfl, hnottrunc]
      rw [h1]
      by_cases hfl2 : estimateTokenCount (normalizeStr s) < cfg.minTokens
      · simp [pruneToolResult, hen, hfl2]
      · have hidem : normalizeStr (normalizeStr s) = normalizeStr s := by
          show String.mk (normalizeChars (normalizeStr s).data) = normalizeStr s
          have hdata : (normalizeStr s).data = normalizeChars s.data := rfl
          rw [hdata, normalizeChars_idem s.data hnb]
          rfl
        simp [pruneToolResult, hen, hfl2, hidem, hnottrunc]

/-- C9 amended witness: re-pruning the pruned form of a fence-free string
returns it unchanged. -/
theorem C9_prune_idempotent_no_fence_witness :
    (pruneToolResult exPruneCfg
        (pruneToolResult exPruneCfg "hello   world").pruned).pruned =
      (pruneToolResult exPruneCfg "hello   world").pruned :=
  C9_prune_idempotent_no_fence exPruneCfg "hello   world" (by decide) (by decide)

end GhostGate
